import Mathlib

/-!
# car25 frontend: polling, wrap-aware speed estimate and sample window

Shallow embedding of `src/frontend/src/App.jsx`.

Modelling conventions.

* A JavaScript number is an IEEE 754 binary64 value. Finite values are carried as
  rationals, and every arithmetic operation of the source (`-`, `+=`, `-=`, `*`,
  `/`) is the exact operation followed by rounding to the nearest binary64 value,
  ties to even (`fl`). Comparisons are exact. Infinities, NaN and the sign of
  zero are not represented: the model covers computations whose results stay
  within the finite binary64 range (`IsDouble` records that range).
* The sample counter is a natural number.
* A JSON field that may be missing (`undefined`) is an `Option`.
* React state (`location`, `cars`, `simSpeed`, `speedData`) and refs
  (`running`, `sampleIndexRef`, `prevXRef`) are fields of one record `App`.
  The browser's table of active interval timers is carried along in the same
  record (`timers`, `nextTimer`), since `setInterval` / `clearInterval` act on it,
  and so is whether the component is still mounted.
* Inside one render of the component, `location` and `simSpeed` are constants:
  a state setter only takes effect in the next render. The handlers that read
  them (`handleStart`, and through it `handleSimSpeedSliderChange`) therefore
  take the values of the render that created them as a `Render` argument.
-/

namespace Car25

/-! ## Binary64 arithmetic -/

/-- Exponent of the spacing of binary64 values around `q`: `e - 52` for `q` in
the binade `[2 ^ e, 2 ^ (e + 1))`, and `-1074` throughout the subnormal range. -/
def ulpExp (q : ℚ) : ℤ := max (Int.log 2 |q|) (-1022) - 52

/-- Nearest integer, ties to the even one. -/
def roundHalfEven (t : ℚ) : ℤ :=
  if t - ⌊t⌋ < 1 / 2 then ⌊t⌋
  else if 1 / 2 < t - ⌊t⌋ then ⌊t⌋ + 1
  else if ⌊t⌋ % 2 = 0 then ⌊t⌋ else ⌊t⌋ + 1

/-- Rounding of an exact result to the nearest binary64 value, ties to even. -/
def fl (q : ℚ) : ℚ := roundHalfEven (q / 2 ^ ulpExp q) * 2 ^ ulpExp q

/-- The rational `q` is a finite binary64 value. -/
def IsDouble (q : ℚ) : Prop := fl q = q ∧ |q| < 2 ^ 1024

instance (q : ℚ) : Decidable (IsDouble q) := by unfold IsDouble; infer_instance

/-- JavaScript `a - b`. -/
def fsub (a b : ℚ) : ℚ := fl (a - b)

/-- JavaScript `a + b`. -/
def fadd (a b : ℚ) : ℚ := fl (a + b)

/-- JavaScript `a * b`. -/
def fmul (a b : ℚ) : ℚ := fl (a * b)

/-- JavaScript `a / b` for `b ≠ 0`. For `b = 0` JavaScript yields an infinity or
NaN, which is not represented; the value here is then 0, which is the delay a
timer uses when it is given a non-finite one. -/
def fdiv (a b : ℚ) : ℚ := fl (a / b)

/-! ## Constants (lines 16-18) -/

/-- Line 16: `const EXTENT_X = 25`. -/
def EXTENT_X : ℚ := 25

/-- Line 17: `const SCALE_PX = 32`. -/
def SCALE_PX : ℚ := 32

/-- Line 18: `const BLUE_ID = 1`. -/
def BLUE_ID : Int := 1

/-! ## Data -/

/-- One entry of the `cars` array of a response: `{id, pos}`. -/
structure Car where
  id : Int
  pos : List ℚ
deriving DecidableEq

/-- One point of the speed series: the object `{ n, speed }` of line 80. -/
structure Sample where
  n : Nat
  speed : ℚ
deriving DecidableEq

/-- Body of the response to `POST /simulations` (lines 38-40); a field is
`none` when the JSON object does not have it. -/
structure SetupData where
  Location : Option String
  cars : Option (List Car)
deriving DecidableEq

/-- Body of the response to `GET <location>` (line 61). -/
structure PollData where
  cars : Option (List Car)
deriving DecidableEq

/-- An active interval created by `setInterval` on line 58: its handle, its
delay in milliseconds, and the two render constants its callback closes over
(`location` on line 59, `simSpeed` on line 76). -/
structure Timer where
  id : Nat
  delay : ℚ
  url : String
  simSpeed : ℚ
deriving DecidableEq

/-- The component's state, its refs, the browser's interval table, and whether
the component is mounted. -/
structure App where
  location : Option String
  cars : Option (List Car)
  simSpeed : ℚ
  speedData : List Sample
  running : Option Nat
  sampleIndexRef : Nat
  prevXRef : Option ℚ
  timers : List Timer
  nextTimer : Nat
  mounted : Bool
deriving DecidableEq

/-- The values of `location` and `simSpeed` bound by `useState` in one render
(lines 8 and 10); the handlers created by that render see exactly these. -/
structure Render where
  location : Option String
  simSpeed : ℚ
deriving DecidableEq

/-- The render produced from a committed state. -/
def render (s : App) : Render := ⟨s.location, s.simSpeed⟩

/-- State at mount: lines 8-10, 13, 21-23; no interval exists and the browser
hands out positive timer handles. -/
def initialApp : App :=
  { location := some "", cars := some [], simSpeed := 10, speedData := [],
    running := none, sampleIndexRef := 0, prevXRef := none,
    timers := [], nextTimer := 1, mounted := true }

/-! ## Speed estimate (lines 69-76) -/

/-- Lines 71-72: the two wrap corrections `dx += EXTENT_X` and `dx -= EXTENT_X`,
applied to `dx` in sequence. -/
def wrapDx (dx : ℚ) : ℚ :=
  let dx1 := if dx < -EXTENT_X / 2 then fadd dx EXTENT_X else dx
  if dx1 > EXTENT_X / 2 then fsub dx1 EXTENT_X else dx1

/-- Lines 69-76: `dx = currX - prevX`, wrap corrections, then
`dx * SCALE_PX * simSpeed` (two multiplications, left to right). -/
def speedPxPerSec (prevX currX simSpeed : ℚ) : ℚ :=
  fmul (fmul (wrapDx (fsub currX prevX)) SCALE_PX) simSpeed

/-! ## Sample window updater (lines 79-84) -/

/-- Lines 79-84: `next = [...prev, smp]`, one `shift()` when
`next.length > 200`. -/
def pushSample (smp : Sample) (prev : List Sample) : List Sample :=
  let next := prev ++ [smp]
  if next.length > 200 then next.tail else next

/-! ## Locating the tracked car (lines 47-48 and 64-66) -/

/-- Lines 47-49 and 64-66: `blue = (cars || []).find(c => c.id === BLUE_ID)`
and, when `blue && blue.pos && blue.pos.length > 0`, the value `blue.pos[0]`. -/
def blueX (cars : Option (List Car)) : Option ℚ :=
  match (cars.getD []).find? (fun c => c.id == BLUE_ID) with
  | some blue => blue.pos.head?
  | none => none

/-! ## Timers and rendering -/

/-- JavaScript truthiness of `location`: a non-empty string. -/
def locationTruthy (location : Option String) : Bool :=
  match location with
  | some l => l != ""
  | none => false

/-- JavaScript truthiness of `running.current`: a non-zero handle. -/
def handleTruthy (h : Option Nat) : Bool :=
  match h with
  | some id => id != 0
  | none => false

/-- Browser `clearInterval(h)`: removes the interval with that handle, and does
nothing for `null` or a handle that is no longer active. -/
def clearInterval (h : Option Nat) (timers : List Timer) : List Timer :=
  match h with
  | some id => timers.filter (fun t => t.id != id)
  | none => timers

/-- The render that follows a state update (lines 106-160). With a `cars` array
it succeeds and changes nothing. With `cars` undefined, `cars.map` on line 133
throws: React unmounts the component and the cleanup of lines 26-28 clears the
interval held in `running.current`. -/
def commitRender (s : App) : App :=
  match s.cars with
  | some _ => s
  | none =>
    if s.mounted then { s with mounted := false, timers := clearInterval s.running s.timers }
    else s

/-! ## Setup (lines 31-52) -/

/-- Lines 38-51: the success continuation of `setup`, and the render after it. -/
def setupThen (data : SetupData) (s : App) : App :=
  let s1 := { s with location := data.Location, cars := data.cars, speedData := [],
                     sampleIndexRef := 0, prevXRef := none }
  match blueX data.cars with
  | some x => commitRender { s1 with prevXRef := some x }
  | none => commitRender s1

/-- Lines 31-52: `setup`. The argument is `none` when the request fails or the
body is not JSON: the promise rejects and the continuation never runs. -/
def setup (resp : Option SetupData) (s : App) : App :=
  match resp with
  | some data => setupThen data s
  | none => s

/-! ## Polling (lines 55-104) -/

/-- Lines 61-88: the completion handler of one poll, issued by an interval
whose callback closed over `simSpeed`, and the render after it. -/
def refreshThen (simSpeed : ℚ) (data : PollData) (s : App) : App :=
  let s1 := { s with cars := data.cars }
  match blueX data.cars with
  | some currX =>
    match s1.prevXRef with
    | some prevX =>
      let n := s1.sampleIndexRef + 1
      commitRender
        { s1 with sampleIndexRef := n,
                  speedData := pushSample ⟨n, speedPxPerSec prevX currX simSpeed⟩ s1.speedData,
                  prevXRef := some currX }
    | none => commitRender { s1 with prevXRef := some currX }
  | none => commitRender s1

/-- Lines 58-89: what the interval `t` does when one of its polls completes: its
callback uses the `simSpeed` it closed over. -/
def tick (t : Timer) (data : PollData) (s : App) : App :=
  refreshThen t.simSpeed data s

/-- Lines 55-90: `handleStart`, as created by the render `r`. -/
def handleStart (r : Render) (s : App) : App :=
  if !locationTruthy r.location then s
  else
    let timers := clearInterval s.running s.timers
    { s with running := some s.nextTimer,
             timers := timers ++
               [⟨s.nextTimer, fdiv 1000 r.simSpeed, r.location.getD "", r.simSpeed⟩],
             nextTimer := s.nextTimer + 1 }

/-- Lines 92-94: `handleStop`. -/
def handleStop (s : App) : App :=
  { s with timers := clearInterval s.running s.timers }

/-- Lines 96-104: `handleSimSpeedSliderChange`, as created by the render `r`,
called with `Number(event.target.value) = newValue`. -/
def handleSimSpeedSliderChange (r : Render) (newValue : ℚ) (s : App) : App :=
  let s1 := { s with simSpeed := newValue }
  if handleTruthy s1.running then
    handleStart r { s1 with timers := clearInterval s1.running s1.timers }
  else s1

/-! ## Runs -/

/-- What can happen after provisioning: a poll issued by an interval with
captured rate `simSpeed` completes with `data`, or the user presses Start,
presses Stop, or edits the rate. -/
inductive Event where
  | refresh (simSpeed : ℚ) (data : PollData)
  | start
  | stop
  | setRate (newValue : ℚ)

/-- State after one event. User events reach the handlers of the latest render,
and only while the component is mounted (the controls of lines 111-125 exist). -/
def step (s : App) : Event → App
  | .refresh r data => refreshThen r data s
  | .start => if s.mounted then handleStart (render s) s else s
  | .stop => if s.mounted then handleStop s else s
  | .setRate v => if s.mounted then handleSimSpeedSliderChange (render s) v s else s

/-- The sample object built on lines 76-80 while handling one event, if the
guards of lines 65 and 67 pass. -/
def emitted (s : App) : Event → List Sample
  | .refresh r data =>
    match blueX data.cars, s.prevXRef with
    | some currX, some prevX => [⟨s.sampleIndexRef + 1, speedPxPerSec prevX currX r⟩]
    | _, _ => []
  | _ => []

/-- State after a sequence of events. -/
def run (s : App) (evs : List Event) : App := evs.foldl step s

/-- All samples built during a sequence of events, in order of creation. -/
def trace : App → List Event → List Sample
  | _, [] => []
  | s, e :: es => emitted s e ++ trace (step s e) es

/-- Active state of the scheduler: some interval is registered. -/
def Running (s : App) : Prop := s.timers ≠ []

/-- Idle state of the scheduler: no interval is registered. -/
def Idle (s : App) : Prop := s.timers = []

/-- The Start button's `disabled={!location}` (line 112). -/
def startDisabled (s : App) : Bool := !locationTruthy s.location

/-! ## Binary64 lemmas -/

theorem roundHalfEven_intCast (n : ℤ) : roundHalfEven (n : ℚ) = n := by
  simp [roundHalfEven]

theorem fl_zero : fl 0 = 0 := by
  simp [fl, roundHalfEven]

theorem log_lt_of_lt_zpow {r : ℚ} (hr : 0 < r) {e : ℤ} (h : r < 2 ^ e) : Int.log 2 r < e := by
  have := (Int.lt_zpow_iff_log_lt (R := ℚ) (b := 2) (by norm_num) hr (x := e)).mp
    (by simpa using h)
  exact this

theorem le_log_of_zpow_le {r : ℚ} (hr : 0 < r) {e : ℤ} (h : 2 ^ e ≤ r) : e ≤ Int.log 2 r := by
  have := (Int.zpow_le_iff_le_log (R := ℚ) (b := 2) (by norm_num) hr (x := e)).mp
    (by simpa using h)
  exact this

theorem zpow_log_le {r : ℚ} (hr : 0 < r) : (2 : ℚ) ^ Int.log 2 r ≤ r := by
  simpa using Int.zpow_log_le_self (R := ℚ) (b := 2) (by norm_num) hr

theorem lt_zpow_log_succ (r : ℚ) : r < (2 : ℚ) ^ (Int.log 2 r + 1) := by
  simpa using Int.lt_zpow_succ_log_self (R := ℚ) (b := 2) (by norm_num) r

/-- A value that is an integer multiple of `2 ^ j` with `j` at least its own unit
exponent is left unchanged by rounding. -/
theorem fl_eq_self_of_int_mul (q : ℚ) (n j : ℤ) (h : q = n * 2 ^ j) (hu : ulpExp q ≤ j) :
    fl q = q := by
  unfold fl
  obtain ⟨k, hk⟩ := Int.eq_ofNat_of_zero_le (sub_nonneg.mpr hu)
  have hj : j = ulpExp q + k := by omega
  have h2 : (2 : ℚ) ^ ulpExp q ≠ 0 := by positivity
  have ht : q / 2 ^ ulpExp q = ((n * 2 ^ k : ℤ) : ℚ) := by
    rw [div_eq_iff h2]
    conv_lhs => rw [h, hj, zpow_add₀ (by norm_num : (2 : ℚ) ≠ 0), zpow_natCast]
    push_cast
    ring
  rw [ht, roundHalfEven_intCast, ← ht, div_mul_cancel₀ _ h2]

theorem fl_of_dyadic (m j : ℤ) (hm : |m| < 2 ^ 53) (hj : -1074 ≤ j) :
    fl (m * 2 ^ j) = m * 2 ^ j := by
  by_cases h0 : m = 0
  · simp [h0, fl_zero]
  · refine fl_eq_self_of_int_mul _ m j rfl ?_
    have hpos : (0 : ℚ) < |(m : ℚ) * 2 ^ j| := by
      have : (m : ℚ) ≠ 0 := by exact_mod_cast h0
      positivity
    have hlt : |(m : ℚ) * 2 ^ j| < 2 ^ (j + 53) := by
      rw [abs_mul, abs_of_pos (by positivity : (0 : ℚ) < 2 ^ j), zpow_add₀ (by norm_num : (2 : ℚ) ≠ 0),
        mul_comm]
      have hm' : |(m : ℚ)| < 2 ^ (53 : ℤ) := by
        have : ((|m| : ℤ) : ℚ) < ((2 ^ 53 : ℤ) : ℚ) := by exact_mod_cast hm
        rw [Int.cast_abs] at this
        calc |(m : ℚ)| < ((2 ^ 53 : ℤ) : ℚ) := this
          _ = 2 ^ (53 : ℤ) := by norm_num
      exact mul_lt_mul_of_pos_left hm' (by positivity)
    have hlog := log_lt_of_lt_zpow hpos hlt
    unfold ulpExp
    omega

theorem ulpExp_ge (q : ℚ) : -1074 ≤ ulpExp q := by
  unfold ulpExp; omega

theorem abs_lt_zpow_ulpExp (q : ℚ) : |q| < 2 ^ (ulpExp q + 53) := by
  have h1 : |q| < (2 : ℚ) ^ (Int.log 2 |q| + 1) := lt_zpow_log_succ |q|
  have h2 : (2 : ℚ) ^ (Int.log 2 |q| + 1) ≤ 2 ^ (ulpExp q + 53) := by
    apply zpow_le_zpow_right₀ (by norm_num)
    unfold ulpExp; omega
  exact lt_of_lt_of_le h1 h2

/-- A multiple of `2 ^ j` of magnitude below `2 ^ (j + 53)` is representable. -/
theorem fl_of_grid (x : ℚ) (m j : ℤ) (hx : x = m * 2 ^ j) (hb : |x| < 2 ^ (j + 53))
    (hj : -1074 ≤ j) : fl x = x := by
  rw [hx]
  apply fl_of_dyadic m j _ hj
  have h2 : (0 : ℚ) < 2 ^ j := by positivity
  rw [hx, abs_mul, abs_of_pos h2, zpow_add₀ (by norm_num : (2 : ℚ) ≠ 0), mul_comm] at hb
  have hm : |(m : ℚ)| < 2 ^ (53 : ℤ) := lt_of_mul_lt_mul_left hb (le_of_lt h2)
  have hm' : ((|m| : ℤ) : ℚ) < ((2 ^ 53 : ℤ) : ℚ) := by
    rw [Int.cast_abs]
    calc |(m : ℚ)| < 2 ^ (53 : ℤ) := hm
      _ = ((2 ^ 53 : ℤ) : ℚ) := by norm_num
  exact_mod_cast hm'

/-- A representable value is an integer multiple of `2 ^ j` for every `j` up to
its unit exponent. -/
theorem grid_of_fl (d : ℚ) (hd : fl d = d) (j : ℤ) (hj : j ≤ ulpExp d) :
    ∃ m : ℤ, d = m * 2 ^ j := by
  obtain ⟨k, hk⟩ := Int.eq_ofNat_of_zero_le (sub_nonneg.mpr hj)
  have hu : ulpExp d = j + k := by omega
  refine ⟨roundHalfEven (d / 2 ^ ulpExp d) * 2 ^ k, ?_⟩
  have h := hd
  unfold fl at h
  conv_lhs => rw [← h]
  rw [hu, zpow_add₀ (by norm_num : (2 : ℚ) ≠ 0), zpow_natCast]
  push_cast
  ring

theorem fl_neg_of (q : ℚ) (h : fl q = q) : fl (-q) = -q := by
  obtain ⟨m, hm⟩ := grid_of_fl q h (ulpExp q) (le_refl _)
  refine fl_of_grid (-q) (-m) (ulpExp q) ?_ ?_ (ulpExp_ge q)
  · push_cast; rw [neg_mul, ← hm]
  · rw [abs_neg]; exact abs_lt_zpow_ulpExp q

/-- Multiplying a representable value by `SCALE_PX = 32` is exact. -/
theorem fl_mul_32 (q : ℚ) (h : fl q = q) : fl (q * 32) = q * 32 := by
  obtain ⟨m, hm⟩ := grid_of_fl q h (ulpExp q) (le_refl _)
  refine fl_of_grid (q * 32) m (ulpExp q + 5) ?_ ?_ (by have := ulpExp_ge q; omega)
  · conv_lhs => rw [hm]
    rw [zpow_add₀ (by norm_num : (2 : ℚ) ≠ 0)]
    norm_num
    ring
  · have hb := abs_lt_zpow_ulpExp q
    rw [abs_mul, show ulpExp q + 5 + 53 = (ulpExp q + 53) + 5 by ring,
      zpow_add₀ (by norm_num : (2 : ℚ) ≠ 0)]
    have : |(32 : ℚ)| = 2 ^ (5 : ℤ) := by norm_num
    rw [this]
    exact mul_lt_mul_of_pos_right hb (by positivity)

theorem ulpExp_ge_of_eight_le (d : ℚ) (h : 8 ≤ |d|) : -49 ≤ ulpExp d := by
  have hpos : (0 : ℚ) < |d| := by linarith
  have : (3 : ℤ) ≤ Int.log 2 |d| := le_log_of_zpow_le hpos (by norm_num; exact h)
  unfold ulpExp; omega

/-- The correction `dx += EXTENT_X` of line 71 is exact on a representable `dx`. -/
theorem fl_add_extent (d : ℚ) (hd : fl d = d) (h1 : d < -25 / 2) (h0 : -25 < d) :
    fl (d + 25) = d + 25 := by
  have habs : |d| = -d := abs_of_neg (by linarith)
  obtain ⟨m, hm⟩ := grid_of_fl d hd (-49) (ulpExp_ge_of_eight_le d (by rw [habs]; linarith))
  refine fl_of_grid (d + 25) (m + 25 * 2 ^ 49) (-49) ?_ ?_ (by norm_num)
  · conv_lhs => rw [hm]
    push_cast
    norm_num
    ring
  · rw [abs_of_pos (by linarith)]
    norm_num
    linarith

/-- The correction `dx -= EXTENT_X` of line 72 is exact on a representable `dx`. -/
theorem fl_sub_extent (d : ℚ) (hd : fl d = d) (h1 : 25 / 2 < d) (h0 : d < 25) :
    fl (d - 25) = d - 25 := by
  have habs : |d| = d := abs_of_pos (by linarith)
  obtain ⟨m, hm⟩ := grid_of_fl d hd (-49) (ulpExp_ge_of_eight_le d (by rw [habs]; linarith))
  refine fl_of_grid (d - 25) (m - 25 * 2 ^ 49) (-49) ?_ ?_ (by norm_num)
  · conv_lhs => rw [hm]
    push_cast
    norm_num
    ring
  · rw [abs_of_neg (by linarith)]
    norm_num
    linarith

theorem roundHalfEven_of_near (t : ℚ) (n : ℤ) (h : |t - n| < 1 / 2) : roundHalfEven t = n := by
  rw [abs_lt] at h
  obtain ⟨hlo, hhi⟩ := h
  by_cases hge : (n : ℚ) ≤ t
  · have hf : ⌊t⌋ = n := Int.floor_eq_iff.mpr ⟨hge, by linarith⟩
    unfold roundHalfEven
    rw [hf, if_pos hhi]
  · push_neg at hge
    have hf : ⌊t⌋ = n - 1 := Int.floor_eq_iff.mpr ⟨by push_cast; linarith, by push_cast; linarith⟩
    unfold roundHalfEven
    rw [hf]
    have h1 : ¬ (t - ((n - 1 : ℤ) : ℚ) < 1 / 2) := by push_cast; linarith
    have h2 : 1 / 2 < t - ((n - 1 : ℤ) : ℚ) := by push_cast; linarith
    rw [if_neg h1, if_pos h2]
    ring

/-- Rounding of a value in the binade `[2 ^ e, 2 ^ (e + 1))` that is within half
a unit of the integer multiple `n * 2 ^ (e - 52)`. -/
theorem fl_eval (q : ℚ) (e n : ℤ) (he : -1022 ≤ e) (h1 : 2 ^ e ≤ |q|) (h2 : |q| < 2 ^ (e + 1))
    (h3 : |q / 2 ^ (e - 52) - n| < 1 / 2) : fl q = n * 2 ^ (e - 52) := by
  have hpos : (0 : ℚ) < |q| := lt_of_lt_of_le (by positivity) h1
  have hlog : Int.log 2 |q| = e := by
    have a := le_log_of_zpow_le hpos h1
    have b := log_lt_of_lt_zpow hpos h2
    omega
  have hu : ulpExp q = e - 52 := by
    unfold ulpExp; rw [hlog]; omega
  unfold fl
  rw [hu, roundHalfEven_of_near _ n h3]


/-- A binary fraction `m / 2 ^ k` with fewer than 53 significant bits is
representable. -/
theorem fl_div_two_pow (m : ℤ) (k : ℕ) (hm : |m| < 2 ^ 53) (hk : k ≤ 1074) :
    fl ((m : ℚ) / 2 ^ k) = (m : ℚ) / 2 ^ k := by
  have h := fl_of_dyadic m (-(k : ℤ)) hm (by omega)
  rw [zpow_neg, zpow_natCast] at h
  exact h

/-- An integer of magnitude below `2 ^ 53` is representable. -/
theorem fl_intCast (m : ℤ) (hm : |m| < 2 ^ 53) : fl (m : ℚ) = m := by
  have h := fl_div_two_pow m 0 hm (by norm_num)
  simpa using h

/-! ## Helper lemmas -/

theorem wrapDx_of_mid (dx : ℚ) (h1 : -EXTENT_X / 2 ≤ dx) (h2 : dx ≤ EXTENT_X / 2) :
    wrapDx dx = dx := by
  unfold wrapDx
  simp only [not_lt.mpr h1, if_false, gt_iff_lt, not_lt.mpr h2]

theorem wrapDx_of_low (dx : ℚ) (hd : fl dx = dx) (h1 : dx < -EXTENT_X / 2)
    (h0 : -EXTENT_X < dx) : wrapDx dx = dx + EXTENT_X := by
  unfold wrapDx
  simp only [h1, if_true, gt_iff_lt]
  unfold EXTENT_X at *
  have hx : fadd dx 25 = dx + 25 := fl_add_extent dx hd h1 (by linarith)
  rw [hx]
  have : ¬ ((25 : ℚ) / 2 < dx + 25) := by linarith
  simp only [this, if_false]

theorem wrapDx_of_high (dx : ℚ) (hd : fl dx = dx) (h2 : EXTENT_X / 2 < dx)
    (h3 : dx < EXTENT_X) : wrapDx dx = dx - EXTENT_X := by
  unfold wrapDx
  unfold EXTENT_X at *
  have : ¬ (dx < -(25 : ℚ) / 2) := by linarith
  simp only [this, if_false, gt_iff_lt, h2, if_true]
  exact fl_sub_extent dx hd h2 h3

/-- When the subtraction of line 69 is exact, the corrected difference `dx` is
representable and the exact product `dx * 32 * rate` is representable, the
speed of line 76 is that product. -/
theorem speed_exact (prev curr rate dx : ℚ) (h1 : fl (curr - prev) = curr - prev)
    (hw : wrapDx (curr - prev) = dx) (hdx : fl dx = dx)
    (h3 : fl (dx * 32 * rate) = dx * 32 * rate) :
    speedPxPerSec prev curr rate = dx * 32 * rate := by
  unfold speedPxPerSec fsub fmul SCALE_PX
  rw [h1, hw, fl_mul_32 dx hdx, h3]

theorem commitRender_of_cars (s : App) (c : List Car) (h : s.cars = some c) :
    commitRender s = s := by
  unfold commitRender
  rw [h]

@[simp]
theorem commitRender_location (s : App) : (commitRender s).location = s.location := by
  unfold commitRender; split <;> [rfl; (split <;> rfl)]

@[simp]
theorem commitRender_cars (s : App) : (commitRender s).cars = s.cars := by
  unfold commitRender; split <;> [rfl; (split <;> rfl)]

@[simp]
theorem commitRender_simSpeed (s : App) : (commitRender s).simSpeed = s.simSpeed := by
  unfold commitRender; split <;> [rfl; (split <;> rfl)]

@[simp]
theorem commitRender_speedData (s : App) : (commitRender s).speedData = s.speedData := by
  unfold commitRender; split <;> [rfl; (split <;> rfl)]

@[simp]
theorem commitRender_running (s : App) : (commitRender s).running = s.running := by
  unfold commitRender; split <;> [rfl; (split <;> rfl)]

@[simp]
theorem commitRender_sampleIndexRef (s : App) :
    (commitRender s).sampleIndexRef = s.sampleIndexRef := by
  unfold commitRender; split <;> [rfl; (split <;> rfl)]

@[simp]
theorem commitRender_prevXRef (s : App) : (commitRender s).prevXRef = s.prevXRef := by
  unfold commitRender; split <;> [rfl; (split <;> rfl)]

/-- Folding the updater over a list of samples, from a window that is within
capacity, keeps the last 200 of the concatenation. -/
theorem foldl_pushSample (xs w : List Sample) (hw : w.length ≤ 200) :
    xs.foldl (fun acc x => pushSample x acc) w = (w ++ xs).drop ((w ++ xs).length - 200) := by
  induction xs generalizing w with
  | nil => simp [Nat.sub_eq_zero_of_le hw]
  | cons x xs ih =>
    have hlen : (pushSample x w).length ≤ 200 := by
      unfold pushSample
      by_cases h : (w ++ [x]).length > 200
      · simp only [h, if_true, List.length_tail]
        simp only [List.length_append, List.length_singleton]; omega
      · simp only [h, if_false]; omega
    rw [List.foldl_cons, ih _ hlen]
    unfold pushSample
    by_cases h : (w ++ [x]).length > 200
    · simp only [h, if_true]
      have hw200 : w.length = 200 := by
        simp only [List.length_append, List.length_singleton] at h; omega
      cases w with
      | nil => simp at hw200
      | cons a w =>
        simp only [List.length_cons] at hw200
        simp only [List.cons_append, List.tail_cons, List.append_assoc, List.singleton_append,
          List.length_cons, List.length_append]
        have e : w.length + (xs.length + 1) + 1 - 200 = (w.length + (xs.length + 1) - 200) + 1 := by
          omega
        rw [e, List.drop_succ_cons]
        simp only [List.length_nil, List.nil_append, Nat.zero_add]
    · simp only [h, if_false, List.append_assoc, List.singleton_append]

/-- The guard of lines 64-66 passes with `currX = x` when the first car with
id `BLUE_ID` has `x` as first coordinate. -/
theorem blueX_of_find (cars : List Car) (blue : Car) (x : ℚ) (rest : List ℚ)
    (hfind : cars.find? (fun c => c.id == BLUE_ID) = some blue) (hpos : blue.pos = x :: rest) :
    blueX (some cars) = some x := by
  simp [blueX, hfind, hpos]

/-- The guard of lines 64-66 passes exactly when the first car with id `BLUE_ID`
has a non-empty `pos`. -/
theorem blueX_eq_some_iff (cars : List Car) (x : ℚ) :
    blueX (some cars) = some x ↔
      ∃ blue rest, cars.find? (fun c => c.id == BLUE_ID) = some blue ∧ blue.pos = x :: rest := by
  unfold blueX
  simp only [Option.getD_some]
  cases hfind : cars.find? (fun c => c.id == BLUE_ID) with
  | none => simp
  | some blue =>
    cases hpos : blue.pos with
    | nil => simp [hpos]
    | cons y rest => simp [hpos]

/-- The guard of lines 64-66 fails exactly when no car has id `BLUE_ID` or the
first such car has an empty `pos`. -/
theorem blueX_eq_none_iff (cars : List Car) :
    blueX (some cars) = none ↔
      (cars.find? (fun c => c.id == BLUE_ID) = none ∨
        ∃ blue, cars.find? (fun c => c.id == BLUE_ID) = some blue ∧ blue.pos = []) := by
  unfold blueX
  simp only [Option.getD_some]
  cases hfind : cars.find? (fun c => c.id == BLUE_ID) with
  | none => simp
  | some blue =>
    cases hpos : blue.pos with
    | nil => simp [hpos]
    | cons y rest => simp [hpos]

/-- When a car with id `BLUE_ID` is the only one with that id, `find` returns it. -/
theorem find_blue_of_unique (cars : List Car) (blue : Car) (hmem : blue ∈ cars)
    (hid : blue.id = BLUE_ID) (huniq : ∀ c ∈ cars, c.id = BLUE_ID → c = blue) :
    cars.find? (fun c => c.id == BLUE_ID) = some blue := by
  cases hfind : cars.find? (fun c => c.id == BLUE_ID) with
  | none =>
    have h := List.find?_eq_none.mp hfind blue hmem
    simp [hid] at h
  | some c =>
    have h1 := List.find?_some hfind
    have h2 := List.mem_of_find?_eq_some hfind
    have h3 : c.id = BLUE_ID := by simpa using h1
    rw [huniq c h2 h3]

/-- The window after a refresh, split on the two guards of lines 65 and 67. -/
theorem refreshThen_speedData (r : ℚ) (data : PollData) (s : App) :
    (refreshThen r data s).speedData =
      (emitted s (.refresh r data)).foldl (fun acc x => pushSample x acc) s.speedData := by
  cases hb : blueX data.cars <;> cases hp : s.prevXRef <;>
    simp [refreshThen, emitted, hb, hp]

/-- The counter after any event advances by the number of samples built. -/
theorem step_sampleIndexRef (s : App) (e : Event) :
    (step s e).sampleIndexRef = s.sampleIndexRef + (emitted s e).length := by
  cases e with
  | refresh r data =>
    cases hb : blueX data.cars <;> cases hp : s.prevXRef <;>
      simp [step, refreshThen, emitted, hb, hp]
  | start =>
    simp only [step, handleStart, emitted]
    split <;> [split; skip] <;> simp
  | stop =>
    simp only [step, handleStop, emitted]
    split <;> simp
  | setRate v =>
    simp only [step, handleSimSpeedSliderChange, handleStart, emitted]
    split <;> [(split <;> [split; skip]); skip] <;> simp

/-- Every sample built by an event carries the counter value plus one. -/
theorem emitted_index (s : App) (e : Event) :
    (emitted s e).map (fun x => x.n) = List.range' (s.sampleIndexRef + 1) (emitted s e).length := by
  cases e with
  | refresh r data =>
    cases hb : blueX data.cars <;> cases hp : s.prevXRef <;>
      simp [emitted, hb, hp, List.range']
  | start => simp [emitted]
  | stop => simp [emitted]
  | setRate v => simp [emitted]

/-- Indices along a run continue from the counter of the starting state. -/
theorem trace_index (evs : List Event) (s : App) :
    (trace s evs).map (fun x => x.n) =
      List.range' (s.sampleIndexRef + 1) (trace s evs).length := by
  induction evs generalizing s with
  | nil => simp [trace]
  | cons e es ih =>
    simp only [trace, List.map_append, List.length_append]
    rw [ih, emitted_index, step_sampleIndexRef, Nat.add_comm (emitted s e).length,
      ← List.range'_append_1]
    congr 2
    omega

/-- The counter after a run is the starting counter plus the number of samples built. -/
theorem run_sampleIndexRef (evs : List Event) (s : App) :
    (run s evs).sampleIndexRef = s.sampleIndexRef + (trace s evs).length := by
  induction evs generalizing s with
  | nil => simp [run, trace]
  | cons e es ih =>
    have h := ih (step s e)
    simp only [run, List.foldl_cons, trace, List.length_append] at h ⊢
    rw [h, step_sampleIndexRef]
    omega

/-- A rate change handled while `running.current` is truthy and the location is
set registers an interval built from the rate of the render that created the
handler, not from the new value. -/
theorem rate_change_timer (s : App) (v : ℚ) (h1 : handleTruthy s.running = true)
    (h2 : locationTruthy s.location = true) :
    (handleSimSpeedSliderChange (render s) v s).simSpeed = v ∧
    (handleSimSpeedSliderChange (render s) v s).timers =
      clearInterval s.running (clearInterval s.running s.timers) ++
        [⟨s.nextTimer, fdiv 1000 s.simSpeed, s.location.getD "", s.simSpeed⟩] := by
  simp [handleSimSpeedSliderChange, handleStart, render, h1, h2]

/-- Rounding to the nearest integer at most doubles the magnitude. -/
theorem abs_roundHalfEven_le (t : ℚ) : |(roundHalfEven t : ℚ)| ≤ 2 * |t| := by
  have h1 := Int.floor_le t
  have h2 := Int.lt_floor_add_one t
  rcases le_or_lt 0 ⌊t⌋ with hf | hf
  · have hf' : (0 : ℚ) ≤ ⌊t⌋ := by exact_mod_cast hf
    have ht : 0 ≤ t := le_trans hf' h1
    rw [abs_of_nonneg ht]
    unfold roundHalfEven
    split_ifs <;> push_cast <;> rw [abs_le] <;> constructor <;> linarith
  · have hf' : (⌊t⌋ : ℚ) ≤ -1 := by exact_mod_cast (Int.le_sub_one_of_lt hf)
    have ht : t < 0 := by linarith
    rw [abs_of_neg ht]
    unfold roundHalfEven
    split_ifs <;> push_cast <;> rw [abs_le] <;> constructor <;> linarith

/-- Rounding to binary64 at most doubles the magnitude. -/
theorem abs_fl_le (q : ℚ) : |fl q| ≤ 2 * |q| := by
  unfold fl
  have h2 : (0 : ℚ) < 2 ^ ulpExp q := by positivity
  rw [abs_mul, abs_of_pos h2]
  calc |(roundHalfEven (q / 2 ^ ulpExp q) : ℚ)| * 2 ^ ulpExp q
      ≤ (2 * |q / 2 ^ ulpExp q|) * 2 ^ ulpExp q :=
        mul_le_mul_of_nonneg_right (abs_roundHalfEven_le _) (le_of_lt h2)
    _ = 2 * |q| := by
        rw [abs_div, abs_of_pos h2]
        field_simp

/-- Magnitude of the corrected difference of lines 71-72. -/
theorem abs_wrapDx_le (d : ℚ) : |wrapDx d| ≤ 4 * |d| + 150 := by
  have hadd : |fadd d EXTENT_X| ≤ 2 * |d| + 50 := by
    unfold fadd EXTENT_X
    have h1 := abs_fl_le (d + 25)
    have h2 := abs_add d 25
    have h3 : |(25 : ℚ)| = 25 := by norm_num
    linarith
  have hsub : ∀ x : ℚ, |fsub x EXTENT_X| ≤ 2 * |x| + 50 := by
    intro x
    unfold fsub EXTENT_X
    have h1 := abs_fl_le (x - 25)
    have h2 := abs_sub x 25
    have h3 : |(25 : ℚ)| = 25 := by norm_num
    linarith
  have h0 := abs_nonneg d
  unfold wrapDx
  simp only
  split_ifs
  · have := hsub (fadd d EXTENT_X); linarith
  · linarith
  · have := hsub d; linarith
  · linarith

theorem speed_same (x r : ℚ) : speedPxPerSec x x r = 0 := by
  have hw : wrapDx 0 = 0 := by norm_num [wrapDx, EXTENT_X]
  simp [speedPxPerSec, fsub, fmul, fl_zero, hw]

theorem speed_5_to_5_5_at_10 : speedPxPerSec 5 (11 / 2) 10 = 160 := by
  have e1 : (11 / 2 : ℚ) - 5 = 1 / 2 := by norm_num
  have e2 : (1 / 2 : ℚ) * 32 * 10 = 160 := by norm_num
  have hhalf : fl (1 / 2 : ℚ) = 1 / 2 := by
    have h := fl_div_two_pow 1 1 (by norm_num) (by norm_num)
    norm_num at h ⊢
    exact h
  have h160 : fl (160 : ℚ) = 160 := by
    have h := fl_intCast 160 (by norm_num)
    norm_num at h ⊢
    exact h
  have h := speed_exact 5 (11 / 2) 10 (1 / 2) (by rw [e1]; exact hhalf)
    (by rw [e1]; exact wrapDx_of_mid _ (by norm_num [EXTENT_X]) (by norm_num [EXTENT_X]))
    hhalf (by rw [e2]; exact h160)
  rw [h, e2]

theorem fdiv_1000_10 : fdiv 1000 10 = 100 := by
  have h := fl_intCast 100 (by norm_num)
  unfold fdiv
  norm_num at h ⊢
  exact h

/-- The binary64 value nearest to the decimal `24.7`. -/
theorem fl_24_7 : fl (247 / 10) = 6952431924753203 / 2 ^ 48 := by
  have h := fl_eval (247 / 10) 4 6952431924753203 (by norm_num)
    (by rw [abs_of_pos (by norm_num)]; norm_num)
    (by rw [abs_of_pos (by norm_num)]; norm_num)
    (by rw [abs_lt]; constructor <;> norm_num)
  rw [h]
  norm_num

theorem speed_5_5_to_24_7_at_10 :
    speedPxPerSec (11 / 2) (6952431924753203 / 2 ^ 48) 10 = -(1856 + 1 / 2 ^ 42) := by
  have e1 : (6952431924753203 / 2 ^ 48 : ℚ) - 11 / 2 = 5404319552844595 / 2 ^ 48 := by norm_num
  have e2 : (5404319552844595 / 2 ^ 48 : ℚ) - 25 = -1632554864921805 / 2 ^ 48 := by norm_num
  have e3 : (-1632554864921805 / 2 ^ 48 : ℚ) * 32 * 10 = -8162774324609025 / 2 ^ 42 := by
    norm_num
  have e4 : (-8162774324609025 / 2 ^ 42 : ℚ) = -(1856 + 1 / 2 ^ 42) := by norm_num
  have hd : fl (5404319552844595 / 2 ^ 48 : ℚ) = 5404319552844595 / 2 ^ 48 := by
    have h := fl_div_two_pow 5404319552844595 48 (by norm_num) (by norm_num)
    push_cast at h
    exact h
  have hdx : fl (-1632554864921805 / 2 ^ 48 : ℚ) = -1632554864921805 / 2 ^ 48 := by
    have h := fl_div_two_pow (-1632554864921805) 48 (by norm_num) (by norm_num)
    push_cast at h
    exact h
  have hv : fl (-8162774324609025 / 2 ^ 42 : ℚ) = -8162774324609025 / 2 ^ 42 := by
    have h := fl_div_two_pow (-8162774324609025) 42 (by norm_num) (by norm_num)
    push_cast at h
    exact h
  have hw : wrapDx (5404319552844595 / 2 ^ 48) = -1632554864921805 / 2 ^ 48 := by
    rw [wrapDx_of_high _ hd (by norm_num [EXTENT_X]) (by norm_num [EXTENT_X])]
    unfold EXTENT_X
    exact e2
  have h := speed_exact (11 / 2) (6952431924753203 / 2 ^ 48) 10 (-1632554864921805 / 2 ^ 48)
    (by rw [e1]; exact hd) (by rw [e1]; exact hw) hdx (by rw [e3]; exact hv)
  rw [h, e3, e4]

/-- Rounding at line 69 can move a difference onto the boundary: for the binary64
values of 12.8 and 0.3 the exact difference is below `-EXTENT_X/2`, the computed
one is exactly `-12.5`, no correction is applied, and the speed at rate 1 is
`-400`. -/
theorem wrap_rounding_example :
    fl (64 / 5) = 3602879701896397 / 2 ^ 48 ∧
    fl (3 / 10) = 5404319552844595 / 2 ^ 54 ∧
    (5404319552844595 / 2 ^ 54 : ℚ) - 3602879701896397 / 2 ^ 48 < -EXTENT_X / 2 ∧
    fsub (5404319552844595 / 2 ^ 54) (3602879701896397 / 2 ^ 48) = -25 / 2 ∧
    speedPxPerSec (3602879701896397 / 2 ^ 48) (5404319552844595 / 2 ^ 54) 1 = -400 := by
  have h128 : fl (64 / 5) = 3602879701896397 / 2 ^ 48 := by
    have h := fl_eval (64 / 5) 3 7205759403792794 (by norm_num)
      (by rw [abs_of_pos (by norm_num)]; norm_num)
      (by rw [abs_of_pos (by norm_num)]; norm_num)
      (by rw [abs_lt]; constructor <;> norm_num)
    rw [h]
    norm_num
  have h03 : fl (3 / 10) = 5404319552844595 / 2 ^ 54 := by
    have h := fl_eval (3 / 10) (-2) 5404319552844595 (by norm_num)
      (by rw [abs_of_pos (by norm_num)]; norm_num)
      (by rw [abs_of_pos (by norm_num)]; norm_num)
      (by rw [abs_lt]; constructor <;> norm_num)
    rw [h]
    norm_num
  have hsub : fsub (5404319552844595 / 2 ^ 54) (3602879701896397 / 2 ^ 48) = -25 / 2 := by
    unfold fsub
    have h := fl_eval ((5404319552844595 / 2 ^ 54 : ℚ) - 3602879701896397 / 2 ^ 48) 3
      (-7036874417766400) (by norm_num)
      (by rw [abs_of_neg (by norm_num)]; norm_num)
      (by rw [abs_of_neg (by norm_num)]; norm_num)
      (by rw [abs_lt]; constructor <;> norm_num)
    rw [h]
    norm_num
  have h400 : fl (-400 : ℚ) = -400 := by
    have h := fl_intCast (-400) (by norm_num)
    norm_num at h ⊢
    exact h
  refine ⟨h128, h03, by norm_num [EXTENT_X], hsub, ?_⟩
  unfold speedPxPerSec
  rw [hsub, wrapDx_of_mid _ (by norm_num [EXTENT_X]) (by norm_num [EXTENT_X])]
  unfold fmul SCALE_PX
  have e1 : (-25 / 2 : ℚ) * 32 = -400 := by norm_num
  have e2 : (-400 : ℚ) * 1 = -400 := by norm_num
  rw [e1, h400, e2, h400]

theorem run_nil (s : App) : run s [] = s := rfl

theorem run_cons (s : App) (e : Event) (es : List Event) :
    run s (e :: es) = run (step s e) es := rfl

/-- The state after Setup answered with `Location` `/simulations/1` and car 1 at 5. -/
theorem setup_at_5 :
    setup (some ⟨some "/simulations/1", some [⟨1, [5]⟩]⟩) initialApp
      = { location := some "/simulations/1", cars := some [⟨1, [5]⟩], simSpeed := 10,
          speedData := [], running := none, sampleIndexRef := 0, prevXRef := some 5,
          timers := [], nextTimer := 1, mounted := true } := by
  simp [setup, setupThen, blueX, BLUE_ID, initialApp, commitRender]

/-- The state after that Setup and Start. -/
theorem started_at_5 :
    step (setup (some ⟨some "/simulations/1", some [⟨1, [5]⟩]⟩) initialApp) .start
      = { location := some "/simulations/1", cars := some [⟨1, [5]⟩], simSpeed := 10,
          speedData := [], running := some 1, sampleIndexRef := 0, prevXRef := some 5,
          timers := [⟨1, 100, "/simulations/1", 10⟩], nextTimer := 2, mounted := true } := by
  have hne : ¬ ("/simulations/1" : String) = "" := by decide
  rw [setup_at_5]
  simp [step, render, handleStart, locationTruthy, clearInterval, fdiv_1000_10, hne]

/-- The state after that Setup, Start and one poll that finds car 1 at 5.5. -/
theorem polled_at_5_5 :
    run (setup (some ⟨some "/simulations/1", some [⟨1, [5]⟩]⟩) initialApp)
        [.start, .refresh 10 ⟨some [⟨1, [11 / 2]⟩]⟩]
      = { location := some "/simulations/1", cars := some [⟨1, [11 / 2]⟩], simSpeed := 10,
          speedData := [⟨1, 160⟩], running := some 1, sampleIndexRef := 1,
          prevXRef := some (11 / 2), timers := [⟨1, 100, "/simulations/1", 10⟩],
          nextTimer := 2, mounted := true } := by
  rw [run_cons, started_at_5, run_cons, run_nil]
  simp [step, refreshThen, blueX, BLUE_ID, commitRender, pushSample, speed_5_to_5_5_at_10]

/-! ## Claims -/

/-- C1 (counterexample). At `prev = 12.5`, `curr = 0`, `rate = 1` the value
`δ = 12.5` lies in `(-EXTENT_X/2, EXTENT_X/2]` and is congruent to
`curr - prev = -12.5` modulo `EXTENT_X`, yet the computed speed is `-400`,
not `δ * SCALE_PX * rate = 400`: the raw difference `-12.5` is not below
`-EXTENT_X/2`, so no correction is applied. -/
theorem wrap_boundary_counterexample :
    ((0 : ℚ) ≤ 25 / 2 ∧ (25 / 2 : ℚ) < EXTENT_X) ∧ ((0 : ℚ) ≤ 0 ∧ (0 : ℚ) < EXTENT_X) ∧
    (-EXTENT_X / 2 < (25 / 2 : ℚ) ∧ (25 / 2 : ℚ) ≤ EXTENT_X / 2) ∧
    (∃ k : ℤ, ((0 : ℚ) - 25 / 2) - 25 / 2 = EXTENT_X * k) ∧
    speedPxPerSec (25 / 2) 0 1 = -400 ∧
    speedPxPerSec (25 / 2) 0 1 ≠ 25 / 2 * SCALE_PX * 1 := by
  have hd : fl (-25 / 2 : ℚ) = -25 / 2 := by
    have h := fl_div_two_pow (-25) 1 (by norm_num) (by norm_num)
    norm_num at h ⊢
    exact h
  have h400 : fl (-400 : ℚ) = -400 := by
    have h := fl_intCast (-400) (by norm_num)
    norm_num at h ⊢
    exact h
  have hs : speedPxPerSec (25 / 2) 0 1 = -400 := by
    have e1 : (0 : ℚ) - 25 / 2 = -25 / 2 := by norm_num
    have e2 : (-25 / 2 : ℚ) * 32 * 1 = -400 := by norm_num
    have h := speed_exact (25 / 2) 0 1 (-25 / 2) (by rw [e1]; exact hd)
      (by rw [e1]; exact wrapDx_of_mid _ (by norm_num [EXTENT_X]) (by norm_num [EXTENT_X]))
      hd (by rw [e2]; exact h400)
    rw [h, e2]
  refine ⟨?_, ?_, ?_, ⟨-1, ?_⟩, hs, ?_⟩
  · norm_num [EXTENT_X]
  · norm_num [EXTENT_X]
  · norm_num [EXTENT_X]
  · norm_num [EXTENT_X]
  · rw [hs]; norm_num [SCALE_PX]

/-- C1 (amended). For `prev, curr ∈ [0, EXTENT_X)`, every rate, and `δ` the value
in `(-EXTENT_X/2, EXTENT_X/2]` congruent to `curr - prev` modulo `EXTENT_X`,
whenever the difference `curr - prev` and the product `δ * SCALE_PX * rate` are
themselves binary64 values (so that neither line 69 nor line 76 rounds): if
`curr - prev ≠ -EXTENT_X/2` the computed speed is `δ * SCALE_PX * rate`; if
`curr - prev = -EXTENT_X/2` no correction is applied and the computed speed is
`-(EXTENT_X/2) * SCALE_PX * rate`. -/
theorem wrap_correct_off_boundary (prev curr rate δ : ℚ)
    (hp0 : 0 ≤ prev) (hp1 : prev < EXTENT_X) (hc0 : 0 ≤ curr) (hc1 : curr < EXTENT_X)
    (hδ0 : -EXTENT_X / 2 < δ) (hδ1 : δ ≤ EXTENT_X / 2)
    (hcong : ∃ k : ℤ, (curr - prev) - δ = EXTENT_X * k)
    (hd : IsDouble (curr - prev)) (hs : IsDouble (δ * SCALE_PX * rate)) :
    (curr - prev ≠ -EXTENT_X / 2 → speedPxPerSec prev curr rate = δ * SCALE_PX * rate) ∧
    (curr - prev = -EXTENT_X / 2 →
      speedPxPerSec prev curr rate = -(EXTENT_X / 2) * SCALE_PX * rate) := by
  obtain ⟨k, hk⟩ := hcong
  have hfd : fl (curr - prev) = curr - prev := hd.1
  constructor
  · intro hne
    have hw : wrapDx (curr - prev) = δ ∧ fl δ = δ := by
      rcases lt_trichotomy (curr - prev) (-EXTENT_X / 2) with hlt | heq | hgt
      · have hlow : -EXTENT_X < curr - prev := by unfold EXTENT_X at *; linarith
        have hx : fl (curr - prev + 25) = curr - prev + 25 :=
          fl_add_extent _ hfd (by unfold EXTENT_X at hlt; linarith)
            (by unfold EXTENT_X at hlow; linarith)
        rw [wrapDx_of_low _ hfd hlt hlow]
        unfold EXTENT_X at *
        have h1 : (k : ℚ) < 0 := by linarith
        have h2 : (-2 : ℚ) < k := by linarith
        have h1' : k < 0 := by exact_mod_cast h1
        have h2' : -2 < k := by exact_mod_cast h2
        have hk' : k = -1 := by omega
        subst hk'
        push_cast at hk
        have e : curr - prev + 25 = δ := by linarith
        rw [e] at hx ⊢
        exact ⟨rfl, hx⟩
      · exact absurd heq hne
      · by_cases hhi : EXTENT_X / 2 < curr - prev
        · have hup : curr - prev < EXTENT_X := by unfold EXTENT_X at *; linarith
          have hx : fl (curr - prev - 25) = curr - prev - 25 :=
            fl_sub_extent _ hfd (by unfold EXTENT_X at hhi; linarith)
              (by unfold EXTENT_X at hup; linarith)
          rw [wrapDx_of_high _ hfd hhi hup]
          unfold EXTENT_X at *
          have h1 : (0 : ℚ) < k := by linarith
          have h2 : (k : ℚ) < 2 := by linarith
          have h1' : 0 < k := by exact_mod_cast h1
          have h2' : k < 2 := by exact_mod_cast h2
          have hk' : k = 1 := by omega
          subst hk'
          push_cast at hk
          have e : curr - prev - 25 = δ := by linarith
          rw [e] at hx ⊢
          exact ⟨rfl, hx⟩
        · rw [wrapDx_of_mid _ (le_of_lt hgt) (not_lt.mp hhi)]
          unfold EXTENT_X at *
          have h1 : (-1 : ℚ) < k := by linarith
          have h2 : (k : ℚ) < 1 := by linarith
          have h1' : -1 < k := by exact_mod_cast h1
          have h2' : k < 1 := by exact_mod_cast h2
          have hk' : k = 0 := by omega
          subst hk'
          push_cast at hk
          have e : curr - prev = δ := by linarith
          rw [e] at hfd ⊢
          exact ⟨rfl, hfd⟩
    have h3 : fl (δ * 32 * rate) = δ * 32 * rate := by
      have := hs.1
      unfold SCALE_PX at this
      exact this
    rw [speed_exact prev curr rate δ hfd hw.1 hw.2 h3]
    unfold SCALE_PX
    ring
  · intro heq
    have hδ : δ = EXTENT_X / 2 := by
      unfold EXTENT_X at *
      have h1 : (-2 : ℚ) < k := by linarith
      have h2 : (k : ℚ) < 0 := by linarith
      have h1' : -2 < k := by exact_mod_cast h1
      have h2' : k < 0 := by exact_mod_cast h2
      have hk' : k = -1 := by omega
      subst hk'
      push_cast at hk
      linarith
    have hw : wrapDx (curr - prev) = -(EXTENT_X / 2) := by
      rw [heq, wrapDx_of_mid _ (le_refl _) (by unfold EXTENT_X; norm_num)]
      ring
    have hfd' : fl (-(EXTENT_X / 2)) = -(EXTENT_X / 2) := by
      have := hfd
      rw [heq] at this
      have e : -EXTENT_X / 2 = -(EXTENT_X / 2) := by ring
      rw [e] at this
      exact this
    have h3 : fl (-(EXTENT_X / 2) * 32 * rate) = -(EXTENT_X / 2) * 32 * rate := by
      have h := fl_neg_of _ hs.1
      rw [hδ] at h
      unfold SCALE_PX at h
      have e : -(EXTENT_X / 2 * 32 * rate) = -(EXTENT_X / 2) * 32 * rate := by ring
      rw [e] at h
      exact h
    rw [speed_exact prev curr rate _ hfd hw hfd' h3]
    unfold SCALE_PX
    ring

/-- C1 (witness). `prev = 24`, `curr = 1`, `rate = 10`: `δ = 2`, and the computed
speed is `2 * SCALE_PX * 10`, not `-23 * SCALE_PX * 10`. -/
theorem wrap_correct_off_boundary_witness :
    speedPxPerSec 24 1 10 = 2 * SCALE_PX * 10 :=
  (wrap_correct_off_boundary 24 1 10 2 (by norm_num) (by norm_num [EXTENT_X]) (by norm_num)
    (by norm_num [EXTENT_X]) (by norm_num [EXTENT_X]) (by norm_num [EXTENT_X])
    ⟨-1, by norm_num [EXTENT_X]⟩
    ⟨by
      have h := fl_intCast (-23) (by norm_num)
      norm_num at h ⊢
      exact h, by norm_num⟩
    ⟨by
      have h := fl_intCast 640 (by norm_num)
      norm_num [SCALE_PX] at h ⊢
      exact h, by norm_num [SCALE_PX]⟩).1 (by norm_num [EXTENT_X])

/-- C2. Appending any samples `s_1 .. s_n` one at a time to the empty window with
the updater of lines 79-84 leaves exactly the last `min n 200` of them, in arrival
order; the length is `min n 200`, hence at most 200. For `n = 250` the window
holds samples 51..250 in order. -/
theorem window_keeps_last_200 (xs : List Sample) (f : Nat → Sample) :
    xs.foldl (fun acc x => pushSample x acc) [] = xs.drop (xs.length - min xs.length 200) ∧
    (xs.foldl (fun acc x => pushSample x acc) []).length = min xs.length 200 ∧
    (xs.foldl (fun acc x => pushSample x acc) []).length ≤ 200 ∧
    ((List.range' 1 250).map f).foldl (fun acc x => pushSample x acc) []
      = (List.range' 51 200).map f := by
  have key : ∀ ys : List Sample,
      ys.foldl (fun acc x => pushSample x acc) [] = ys.drop (ys.length - 200) := by
    intro ys
    have := foldl_pushSample ys [] (by simp)
    simpa using this
  refine ⟨?_, ?_, ?_, ?_⟩
  · have e : xs.length - min xs.length 200 = xs.length - 200 := by omega
    rw [key, e]
  · rw [key, List.length_drop]; omega
  · rw [key, List.length_drop]; omega
  · rw [key]
    have h250 : List.range' 1 250 = List.range' 1 50 ++ List.range' 51 200 := by
      have h := List.range'_append_1 1 50 200
      have e1 : 1 + 50 = 51 := by norm_num
      have e2 : 200 + 50 = 250 := by norm_num
      rw [e1, e2] at h
      exact h.symm
    have h50 : 250 - 200 = 50 := by norm_num
    have hl : (List.range' 1 50).length = 50 := by simp
    rw [List.length_map, List.length_range', ← List.map_drop, h250, h50, List.drop_left' hl]

/-- C3 (counterexample). The claim's own scenario, with `EXTENT_X = 25`,
`SCALE_PX = 32`, rate 10: provisioning at position 5, Start, a poll at 5.5 and a
poll at the binary64 value of 24.7 (which is `6952431924753203 / 2 ^ 48`) leave
the window `[{n: 1, speed: 160}, {n: 2, speed: -(1856 + 2 ^ (-42))}]`: the second
value is `-1856.0000000000002`, not `-1856`. -/
theorem refresh_scenario_counterexample :
    fl (247 / 10) = 6952431924753203 / 2 ^ 48 ∧
    (run (setup (some ⟨some "/simulations/1", some [⟨1, [5]⟩]⟩) initialApp)
      [.start, .refresh 10 ⟨some [⟨1, [11 / 2]⟩]⟩,
        .refresh 10 ⟨some [⟨1, [fl (247 / 10)]⟩]⟩]).speedData
      = [⟨1, 160⟩, ⟨2, -(1856 + 1 / 2 ^ 42)⟩] ∧
    (run (setup (some ⟨some "/simulations/1", some [⟨1, [5]⟩]⟩) initialApp)
      [.start, .refresh 10 ⟨some [⟨1, [11 / 2]⟩]⟩,
        .refresh 10 ⟨some [⟨1, [fl (247 / 10)]⟩]⟩]).speedData
      ≠ [⟨1, 160⟩, ⟨2, -1856⟩] := by
  have hrun : (run (setup (some ⟨some "/simulations/1", some [⟨1, [5]⟩]⟩) initialApp)
      [.start, .refresh 10 ⟨some [⟨1, [11 / 2]⟩]⟩,
        .refresh 10 ⟨some [⟨1, [fl (247 / 10)]⟩]⟩]).speedData
      = [⟨1, 160⟩, ⟨2, -(1856 + 1 / 2 ^ 42)⟩] := by
    have h := polled_at_5_5
    rw [run_cons, run_cons, run_nil] at h
    rw [run_cons, run_cons, run_cons, run_nil, h, fl_24_7]
    simp [step, refreshThen, blueX, BLUE_ID, commitRender, pushSample, speed_5_5_to_24_7_at_10]
  refine ⟨fl_24_7, hrun, ?_⟩
  rw [hrun]
  norm_num

/-- C3 (amended). From any state whose `prevXRef` holds `p`, whose counter is `k`
and whose rate is `r = simSpeed`, the completion of a poll issued by one of the
session's active intervals whose callback closed over that same rate, with a
snapshot that has the tracked car (the first with id 1) at `pos[0] = c`, builds
exactly the sample `{n: k+1, speed: V}` where `V` is `wrapDx(c - p) * 32 * r`
evaluated in binary64 arithmetic (each of the subtraction, the correction and the
two products rounded); it pushes that sample at the end of the window (after the
one eviction of the updater when the window was full), sets the counter to `k+1`,
`prevXRef` to `c` and `cars` to the snapshot, and leaves `location`, `simSpeed`,
`running` and the timers as they were. For `p`, `c`, `r` of magnitude at most
`2 ^ 500` every intermediate result stays within the finite binary64 range. -/
theorem refresh_step (s : App) (t : Timer) (p c : ℚ) (cars : List Car) (blue : Car)
    (rest : List ℚ)
    (ht : t ∈ s.timers) (hrate : t.simSpeed = s.simSpeed)
    (hp : s.prevXRef = some p)
    (hfind : cars.find? (fun x => x.id == BLUE_ID) = some blue)
    (hpos : blue.pos = c :: rest)
    (hpb : |p| ≤ 2 ^ 500) (hcb : |c| ≤ 2 ^ 500) (hrb : |s.simSpeed| ≤ 2 ^ 500) :
    emitted s (.refresh t.simSpeed ⟨some cars⟩)
      = [⟨s.sampleIndexRef + 1, fmul (fmul (wrapDx (fsub c p)) SCALE_PX) s.simSpeed⟩] ∧
    (tick t ⟨some cars⟩ s).speedData
      = pushSample ⟨s.sampleIndexRef + 1, fmul (fmul (wrapDx (fsub c p)) SCALE_PX) s.simSpeed⟩
          s.speedData ∧
    (s.speedData.length < 200 → (tick t ⟨some cars⟩ s).speedData
      = s.speedData ++
          [⟨s.sampleIndexRef + 1, fmul (fmul (wrapDx (fsub c p)) SCALE_PX) s.simSpeed⟩]) ∧
    (200 ≤ s.speedData.length → (tick t ⟨some cars⟩ s).speedData
      = s.speedData.tail ++
          [⟨s.sampleIndexRef + 1, fmul (fmul (wrapDx (fsub c p)) SCALE_PX) s.simSpeed⟩]) ∧
    (tick t ⟨some cars⟩ s).sampleIndexRef = s.sampleIndexRef + 1 ∧
    (tick t ⟨some cars⟩ s).prevXRef = some c ∧
    (tick t ⟨some cars⟩ s).cars = some cars ∧
    (tick t ⟨some cars⟩ s).location = s.location ∧
    (tick t ⟨some cars⟩ s).simSpeed = s.simSpeed ∧
    (tick t ⟨some cars⟩ s).running = s.running ∧
    (tick t ⟨some cars⟩ s).timers = s.timers ∧
    t ∈ (tick t ⟨some cars⟩ s).timers ∧
    (|fsub c p| < 2 ^ 1024 ∧ |wrapDx (fsub c p)| < 2 ^ 1024 ∧
      |fmul (wrapDx (fsub c p)) SCALE_PX| < 2 ^ 1024 ∧
      |fmul (fmul (wrapDx (fsub c p)) SCALE_PX) s.simSpeed| < 2 ^ 1024) := by
  have hb : blueX (some cars) = some c := blueX_of_find cars blue c rest hfind hpos
  have hdata : tick t ⟨some cars⟩ s =
      { s with cars := some cars, sampleIndexRef := s.sampleIndexRef + 1,
               speedData := pushSample
                 ⟨s.sampleIndexRef + 1, fmul (fmul (wrapDx (fsub c p)) SCALE_PX) s.simSpeed⟩
                 s.speedData,
               prevXRef := some c } := by
    simp [tick, refreshThen, hb, hp, speedPxPerSec, hrate, commitRender]
  rw [hdata]
  refine ⟨?_, rfl, ?_, ?_, rfl, rfl, rfl, rfl, rfl, rfl, rfl, ht, ?_⟩
  · simp [emitted, hb, hp, speedPxPerSec, hrate]
  · intro hlen
    have h : ¬ ((s.speedData ++ [(⟨s.sampleIndexRef + 1,
        fmul (fmul (wrapDx (fsub c p)) SCALE_PX) s.simSpeed⟩ : Sample)]).length > 200) := by
      simp only [List.length_append, List.length_singleton]; omega
    simp only [pushSample, h, if_false]
  · intro hlen
    have h : (s.speedData ++ [(⟨s.sampleIndexRef + 1,
        fmul (fmul (wrapDx (fsub c p)) SCALE_PX) s.simSpeed⟩ : Sample)]).length > 200 := by
      simp only [List.length_append, List.length_singleton]; omega
    simp only [pushSample, h, if_true]
    cases hsd : s.speedData with
    | nil => rw [hsd] at hlen; simp at hlen
    | cons a w => simp
  · have hB : (2 : ℚ) ^ 500 * 2 ^ 500 = 2 ^ 1000 := by rw [← pow_add]
    have hB0 : (150 : ℚ) ≤ 2 ^ 500 := by norm_num
    have hBpos : (0 : ℚ) < 2 ^ 500 := by positivity
    have hd : |fsub c p| ≤ 4 * 2 ^ 500 := by
      have h1 := abs_fl_le (c - p)
      have h2 := abs_sub c p
      unfold fsub
      linarith
    have hw : |wrapDx (fsub c p)| ≤ 17 * 2 ^ 500 := by
      have h1 := abs_wrapDx_le (fsub c p)
      linarith
    have ha : |fmul (wrapDx (fsub c p)) SCALE_PX| ≤ 1088 * 2 ^ 500 := by
      have h1 := abs_fl_le (wrapDx (fsub c p) * SCALE_PX)
      have h2 : |wrapDx (fsub c p) * SCALE_PX| = |wrapDx (fsub c p)| * 32 := by
        rw [abs_mul]; unfold SCALE_PX; norm_num
      unfold fmul
      linarith
    have hv : |fmul (fmul (wrapDx (fsub c p)) SCALE_PX) s.simSpeed| ≤ 2176 * 2 ^ 1000 := by
      have h1 := abs_fl_le (fmul (wrapDx (fsub c p)) SCALE_PX * s.simSpeed)
      have h2 : |fmul (wrapDx (fsub c p)) SCALE_PX * s.simSpeed|
          ≤ (1088 * 2 ^ 500) * 2 ^ 500 := by
        rw [abs_mul]
        exact mul_le_mul ha hrb (abs_nonneg _) (by positivity)
      have h3 : fmul (fmul (wrapDx (fsub c p)) SCALE_PX) s.simSpeed
          = fl (fmul (wrapDx (fsub c p)) SCALE_PX * s.simSpeed) := rfl
      rw [h3]
      have h4 : ((1088 : ℚ) * 2 ^ 500) * 2 ^ 500 = 1088 * 2 ^ 1000 := by
        rw [mul_assoc, hB]
      linarith
    have hbig : (2176 : ℚ) * 2 ^ 1000 < 2 ^ 1024 := by
      have e : (2 : ℚ) ^ 1024 = 2 ^ 24 * 2 ^ 1000 := by rw [← pow_add]
      rw [e]
      exact mul_lt_mul_of_pos_right (by norm_num) (by positivity)
    have hmid : (1088 : ℚ) * 2 ^ 500 < 2 ^ 1024 := by
      have e : (2 : ℚ) ^ 1024 = 2 ^ 524 * 2 ^ 500 := by rw [← pow_add]
      rw [e]
      exact mul_lt_mul_of_pos_right (by norm_num) (by positivity)
    refine ⟨?_, ?_, ?_, ?_⟩ <;> linarith

/-- C3 (witness). After provisioning at position 5 and Start at rate 10, the poll
of interval 1 (rate 10, the session's rate) that finds car 1 at 5.5 leaves the
window `[{n: 1, speed: 160}]`. -/
theorem refresh_step_witness :
    (tick ⟨1, 100, "/simulations/1", 10⟩ ⟨some [⟨1, [11 / 2]⟩]⟩
      (step (setup (some ⟨some "/simulations/1", some [⟨1, [5]⟩]⟩) initialApp) .start)).speedData
      = [⟨1, 160⟩] := by
  have h := (refresh_step
    (step (setup (some ⟨some "/simulations/1", some [⟨1, [5]⟩]⟩) initialApp) .start)
    ⟨1, 100, "/simulations/1", 10⟩ 5 (11 / 2) [⟨1, [11 / 2]⟩] ⟨1, [11 / 2]⟩ []
    (by rw [started_at_5]; simp) (by rw [started_at_5])
    (by rw [started_at_5]) (by simp [BLUE_ID]) rfl
    (by rw [abs_of_pos (by norm_num)]; norm_num)
    (by rw [abs_of_pos (by norm_num)]; norm_num)
    (by rw [started_at_5]; rw [abs_of_pos (by norm_num)]; norm_num)).2.1
  rw [h, started_at_5]
  have hs := speed_5_to_5_5_at_10
  unfold speedPxPerSec at hs
  simp [pushSample, hs]

/-- C4. After a provisioning response with `Location` and `cars` applied to any
prior state, along any sequence of poll completions (of any captured rate, with
any snapshot, including ones that build no sample), Start, Stop and rate changes,
the samples built carry the indices `1, 2, 3, ...` in order: the `k`-th sample has
index `k`, and the counter ends at the number of samples built. -/
theorem index_run_consecutive (s0 : App) (L : String) (C : List Car) (evs : List Event) :
    (trace (setup (some ⟨some L, some C⟩) s0) evs).map (fun x => x.n)
      = List.range' 1 (trace (setup (some ⟨some L, some C⟩) s0) evs).length ∧
    (∀ k (hk : k < (trace (setup (some ⟨some L, some C⟩) s0) evs).length),
      ((trace (setup (some ⟨some L, some C⟩) s0) evs).get ⟨k, hk⟩).n = k + 1) ∧
    (run (setup (some ⟨some L, some C⟩) s0) evs).sampleIndexRef
      = (trace (setup (some ⟨some L, some C⟩) s0) evs).length := by
  have h0 : (setup (some ⟨some L, some C⟩) s0).sampleIndexRef = 0 := by
    simp only [setup, setupThen]
    cases blueX (some C) <;> rfl
  have hmap := trace_index evs (setup (some ⟨some L, some C⟩) s0)
  rw [h0] at hmap
  refine ⟨hmap, ?_, ?_⟩
  · intro k hk
    have hk' : k < ((trace (setup (some ⟨some L, some C⟩) s0) evs).map (fun x => x.n)).length := by
      simpa using hk
    have e1 : ((trace (setup (some ⟨some L, some C⟩) s0) evs).map (fun x => x.n))[k]
        = ((trace (setup (some ⟨some L, some C⟩) s0) evs).get ⟨k, hk⟩).n := by
      simp
    rw [← e1]
    simp only [hmap, List.getElem_range']
    omega
  · rw [run_sampleIndexRef, h0]; omega

/-- C4 (witness). Provisioning at 5, Start, a poll at 5.5, a poll without the
tracked car, Stop, Start, a rate change and a poll at 6: two samples are built,
with indices 1 and 2. -/
theorem index_run_consecutive_witness :
    (trace (setup (some ⟨some "/simulations/1", some [⟨1, [5]⟩]⟩) initialApp)
      [.start, .refresh 10 ⟨some [⟨1, [11 / 2]⟩]⟩, .refresh 10 ⟨some [⟨2, [3]⟩]⟩, .stop, .start,
        .setRate 20, .refresh 10 ⟨some [⟨1, [6]⟩]⟩]).length = 2 ∧
    (trace (setup (some ⟨some "/simulations/1", some [⟨1, [5]⟩]⟩) initialApp)
      [.start, .refresh 10 ⟨some [⟨1, [11 / 2]⟩]⟩, .refresh 10 ⟨some [⟨2, [3]⟩]⟩, .stop, .start,
        .setRate 20, .refresh 10 ⟨some [⟨1, [6]⟩]⟩]).map (fun x => x.n)
      = List.range' 1
        (trace (setup (some ⟨some "/simulations/1", some [⟨1, [5]⟩]⟩) initialApp)
          [.start, .refresh 10 ⟨some [⟨1, [11 / 2]⟩]⟩, .refresh 10 ⟨some [⟨2, [3]⟩]⟩, .stop,
            .start, .setRate 20, .refresh 10 ⟨some [⟨1, [6]⟩]⟩]).length := by
  have hne : ¬ ("/simulations/1" : String) = "" := by decide
  refine ⟨?_, (index_run_consecutive initialApp "/simulations/1" [⟨1, [5]⟩] _).1⟩
  rw [setup_at_5]
  simp [trace, step, render, handleStart, handleStop, handleSimSpeedSliderChange,
    handleTruthy, locationTruthy, clearInterval, refreshThen, emitted, blueX,
    BLUE_ID, pushSample, commitRender, hne]

/-- C5. For every prior state and every provisioning response with `Location = L`
and `cars = C`, after `setup` the location is `L`, the vehicle set is `C`, the
window is empty, the counter is 0, and `prevXRef` is `pos[0]` of the first car
with id 1 when that car has a non-empty `pos` (in fact of the car with id 1 when
it is the only one with that id), and `null` otherwise; `simSpeed`, `running` and
the timers are untouched. -/
theorem setup_postcondition (s : App) (L : String) (C : List Car) :
    (setup (some ⟨some L, some C⟩) s).location = some L ∧
    (setup (some ⟨some L, some C⟩) s).cars = some C ∧
    (setup (some ⟨some L, some C⟩) s).speedData = [] ∧
    (setup (some ⟨some L, some C⟩) s).sampleIndexRef = 0 ∧
    (∀ x, (setup (some ⟨some L, some C⟩) s).prevXRef = some x ↔
      ∃ blue rest, C.find? (fun c => c.id == BLUE_ID) = some blue ∧ blue.pos = x :: rest) ∧
    ((setup (some ⟨some L, some C⟩) s).prevXRef = none ↔
      (C.find? (fun c => c.id == BLUE_ID) = none ∨
        ∃ blue, C.find? (fun c => c.id == BLUE_ID) = some blue ∧ blue.pos = [])) ∧
    (∀ blue ∈ C, blue.id = BLUE_ID → (∀ c ∈ C, c.id = BLUE_ID → c = blue) →
      (setup (some ⟨some L, some C⟩) s).prevXRef = blue.pos.head?) ∧
    ((∀ c ∈ C, c.id ≠ BLUE_ID) → (setup (some ⟨some L, some C⟩) s).prevXRef = none) ∧
    (setup (some ⟨some L, some C⟩) s).simSpeed = s.simSpeed ∧
    (setup (some ⟨some L, some C⟩) s).running = s.running ∧
    (setup (some ⟨some L, some C⟩) s).timers = s.timers := by
  have hprev : (setup (some ⟨some L, some C⟩) s).prevXRef = blueX (some C) := by
    simp only [setup, setupThen]
    cases hb : blueX (some C) <;> rfl
  have hrest : ∀ s' : App, s' = setup (some ⟨some L, some C⟩) s →
      s'.location = some L ∧ s'.cars = some C ∧ s'.speedData = [] ∧ s'.sampleIndexRef = 0 ∧
      s'.simSpeed = s.simSpeed ∧ s'.running = s.running ∧ s'.timers = s.timers := by
    intro s' hs'
    subst hs'
    simp only [setup, setupThen]
    cases blueX (some C) <;> exact ⟨rfl, rfl, rfl, rfl, rfl, rfl, rfl⟩
  obtain ⟨h1, h2, h3, h4, h5, h6, h7⟩ := hrest _ rfl
  refine ⟨h1, h2, h3, h4, ?_, ?_, ?_, ?_, h5, h6, h7⟩
  · intro x; rw [hprev]; exact blueX_eq_some_iff C x
  · rw [hprev]; exact blueX_eq_none_iff C
  · intro blue hmem hid huniq
    rw [hprev]
    simp [blueX, find_blue_of_unique C blue hmem hid huniq]
  · intro hno
    rw [hprev]
    refine (blueX_eq_none_iff C).mpr (Or.inl ?_)
    rw [List.find?_eq_none]
    intro c hc
    simpa using hno c hc

/-- C5 (witness). Provisioning with cars `[{id: 2, pos: [3]}, {id: 1, pos: [5]}]`
seeds `prevXRef` with 5, and with no car of id 1 leaves it `null`. -/
theorem setup_postcondition_witness :
    (setup (some ⟨some "/simulations/1", some [⟨2, [3]⟩, ⟨1, [5]⟩]⟩) initialApp).prevXRef
      = some 5 ∧
    (setup (some ⟨some "/simulations/1", some [⟨2, [3]⟩]⟩) initialApp).prevXRef = none :=
  ⟨(setup_postcondition initialApp "/simulations/1" [⟨2, [3]⟩, ⟨1, [5]⟩]).2.2.2.2.2.2.1
      ⟨1, [5]⟩ (by simp) (by simp [BLUE_ID]) (by simp [BLUE_ID]),
   (setup_postcondition initialApp "/simulations/1" [⟨2, [3]⟩]).2.2.2.2.2.2.2.1
      (by simp [BLUE_ID])⟩

/-- C6 (counterexample). Provisioning with the tracked car at position 5 seeds
`prevXRef = 5` and leaves the window empty; after Start, the first poll completion
that finds the car still at 5 builds the sample `{n: 1, speed: 0}`: the window is
not empty and the counter is 1, not 0. -/
theorem reset_then_same_position_counterexample :
    (setup (some ⟨some "/simulations/1", some [⟨1, [5]⟩]⟩) initialApp).prevXRef = some 5 ∧
    (setup (some ⟨some "/simulations/1", some [⟨1, [5]⟩]⟩) initialApp).speedData = [] ∧
    trace (setup (some ⟨some "/simulations/1", some [⟨1, [5]⟩]⟩) initialApp)
      [.start, .refresh 10 ⟨some [⟨1, [5]⟩]⟩] = [⟨1, 0⟩] ∧
    (run (setup (some ⟨some "/simulations/1", some [⟨1, [5]⟩]⟩) initialApp)
      [.start, .refresh 10 ⟨some [⟨1, [5]⟩]⟩]).speedData = [⟨1, 0⟩] ∧
    (run (setup (some ⟨some "/simulations/1", some [⟨1, [5]⟩]⟩) initialApp)
      [.start, .refresh 10 ⟨some [⟨1, [5]⟩]⟩]).speedData ≠ [] ∧
    (run (setup (some ⟨some "/simulations/1", some [⟨1, [5]⟩]⟩) initialApp)
      [.start, .refresh 10 ⟨some [⟨1, [5]⟩]⟩]).sampleIndexRef = 1 := by
  have hrun : run (setup (some ⟨some "/simulations/1", some [⟨1, [5]⟩]⟩) initialApp)
      [.start, .refresh 10 ⟨some [⟨1, [5]⟩]⟩]
      = { location := some "/simulations/1", cars := some [⟨1, [5]⟩], simSpeed := 10,
          speedData := [⟨1, 0⟩], running := some 1, sampleIndexRef := 1, prevXRef := some 5,
          timers := [⟨1, 100, "/simulations/1", 10⟩], nextTimer := 2, mounted := true } := by
    rw [run_cons, started_at_5, run_cons, run_nil]
    simp [step, refreshThen, blueX, BLUE_ID, commitRender, pushSample, speed_same]
  have htrace : trace (setup (some ⟨some "/simulations/1", some [⟨1, [5]⟩]⟩) initialApp)
      [.start, .refresh 10 ⟨some [⟨1, [5]⟩]⟩] = [⟨1, 0⟩] := by
    simp only [trace]
    rw [started_at_5]
    simp [emitted, blueX, BLUE_ID, speed_same]
  refine ⟨?_, ?_, htrace, ?_, ?_, ?_⟩
  · rw [setup_at_5]
  · rw [setup_at_5]
  · rw [hrun]
  · rw [hrun]; simp
  · rw [hrun]

/-- C6 (amended). After any provisioning whose snapshot has the tracked car at
position `x` (so `prevXRef` is seeded with `x`), the window is empty and the
counter is 0; the next poll completion, of any captured rate `r`, that finds the
tracked car at the same position `x` builds the sample `{n: 1, speed: 0}`, so the
window is `[{n: 1, speed: 0}]`, the counter is 1 and `prevXRef` is still `x`. -/
theorem reset_then_same_position (s0 : App) (L : String) (C C' : List Car) (x r : ℚ)
    (blue blue' : Car) (rest rest' : List ℚ)
    (hfind : C.find? (fun c => c.id == BLUE_ID) = some blue) (hpos : blue.pos = x :: rest)
    (hfind' : C'.find? (fun c => c.id == BLUE_ID) = some blue') (hpos' : blue'.pos = x :: rest') :
    (setup (some ⟨some L, some C⟩) s0).speedData = [] ∧
    (setup (some ⟨some L, some C⟩) s0).sampleIndexRef = 0 ∧
    (setup (some ⟨some L, some C⟩) s0).prevXRef = some x ∧
    emitted (setup (some ⟨some L, some C⟩) s0) (.refresh r ⟨some C'⟩) = [⟨1, 0⟩] ∧
    (refreshThen r ⟨some C'⟩ (setup (some ⟨some L, some C⟩) s0)).speedData = [⟨1, 0⟩] ∧
    (refreshThen r ⟨some C'⟩ (setup (some ⟨some L, some C⟩) s0)).sampleIndexRef = 1 ∧
    (refreshThen r ⟨some C'⟩ (setup (some ⟨some L, some C⟩) s0)).prevXRef = some x := by
  have hb : blueX (some C) = some x := blueX_of_find C blue x rest hfind hpos
  have hb' : blueX (some C') = some x := blueX_of_find C' blue' x rest' hfind' hpos'
  refine ⟨?_, ?_, ?_, ?_, ?_, ?_, ?_⟩ <;>
    simp [refreshThen, emitted, setup, setupThen, hb, hb', pushSample, speed_same]

/-- C6 (witness). Provisioning at position 5 and a first poll at position 5. -/
theorem reset_then_same_position_witness :
    (refreshThen 10 ⟨some [⟨2, [3]⟩, ⟨1, [5]⟩]⟩
      (setup (some ⟨some "/simulations/1", some [⟨1, [5]⟩]⟩) initialApp)).speedData
      = [⟨1, 0⟩] :=
  (reset_then_same_position initialApp "/simulations/1" [⟨1, [5]⟩] [⟨2, [3]⟩, ⟨1, [5]⟩] 5 10
    ⟨1, [5]⟩ ⟨1, [5]⟩ [] [] (by simp [BLUE_ID]) rfl (by simp [BLUE_ID]) rfl).2.2.2.2.1

/-- C7 (counterexample). Prior state: provisioned at position 5, started, one
poll at 5.5, so the window is `[{n: 1, speed: 160}]`, the counter is 1 and
`prevXRef = 5.5`. A provisioning response that is a JSON object without
`Location` (cars `[{id: 1, pos: [7]}]`) does not leave that state: the location
becomes `undefined`, the vehicle set is replaced, the window is emptied, the
counter is 0 and `prevXRef` is 7. -/
theorem setup_malformed_counterexample :
    run (setup (some ⟨some "/simulations/1", some [⟨1, [5]⟩]⟩) initialApp)
        [.start, .refresh 10 ⟨some [⟨1, [11 / 2]⟩]⟩]
      = { location := some "/simulations/1", cars := some [⟨1, [11 / 2]⟩], simSpeed := 10,
          speedData := [⟨1, 160⟩], running := some 1, sampleIndexRef := 1,
          prevXRef := some (11 / 2), timers := [⟨1, 100, "/simulations/1", 10⟩],
          nextTimer := 2, mounted := true } ∧
    setup (some ⟨none, some [⟨1, [7]⟩]⟩)
        (run (setup (some ⟨some "/simulations/1", some [⟨1, [5]⟩]⟩) initialApp)
          [.start, .refresh 10 ⟨some [⟨1, [11 / 2]⟩]⟩])
      = { location := none, cars := some [⟨1, [7]⟩], simSpeed := 10,
          speedData := [], running := some 1, sampleIndexRef := 0,
          prevXRef := some 7, timers := [⟨1, 100, "/simulations/1", 10⟩],
          nextTimer := 2, mounted := true } ∧
    setup (some ⟨none, some [⟨1, [7]⟩]⟩)
        (run (setup (some ⟨some "/simulations/1", some [⟨1, [5]⟩]⟩) initialApp)
          [.start, .refresh 10 ⟨some [⟨1, [11 / 2]⟩]⟩])
      ≠ run (setup (some ⟨some "/simulations/1", some [⟨1, [5]⟩]⟩) initialApp)
          [.start, .refresh 10 ⟨some [⟨1, [11 / 2]⟩]⟩] := by
  refine ⟨polled_at_5_5, ?_, ?_⟩
  · rw [polled_at_5_5]
    simp [setup, setupThen, blueX, BLUE_ID, commitRender]
  · rw [polled_at_5_5]
    simp [setup, setupThen, blueX, BLUE_ID, commitRender]

/-- C7 (amended). When the request fails or its body is not JSON the session is
unchanged. When the response is a JSON object that has a `cars` array `C` but no
`Location`, the continuation runs as on success with `Location` read as
`undefined`: the location becomes `undefined`, so the Start button is disabled
afterwards, the vehicle set is replaced by `C`, the window is emptied, the
counter is reset to 0 and `prevXRef` is re-derived from `C`; `simSpeed`,
`running` and the timers are untouched. -/
theorem setup_malformed (s : App) (C : List Car) :
    setup none s = s ∧
    (setup (some ⟨none, some C⟩) s).location = none ∧
    startDisabled (setup (some ⟨none, some C⟩) s) = true ∧
    (setup (some ⟨none, some C⟩) s).cars = some C ∧
    (setup (some ⟨none, some C⟩) s).speedData = [] ∧
    (setup (some ⟨none, some C⟩) s).sampleIndexRef = 0 ∧
    (setup (some ⟨none, some C⟩) s).prevXRef = blueX (some C) ∧
    (setup (some ⟨none, some C⟩) s).simSpeed = s.simSpeed ∧
    (setup (some ⟨none, some C⟩) s).running = s.running ∧
    (setup (some ⟨none, some C⟩) s).timers = s.timers ∧
    (setup (some ⟨none, some C⟩) s).mounted = s.mounted := by
  refine ⟨rfl, ?_⟩
  cases hb : blueX (some C) <;>
    simp [setup, setupThen, hb, startDisabled, locationTruthy, commitRender]

/-- C10. For every state, every captured rate and every snapshot in which no car
has id 1, or in which the first car with id 1 has an empty `pos`, the poll
completion replaces the vehicle set by the snapshot, builds no sample, and leaves
the window, the counter and `prevXRef` (and everything else) unchanged. -/
theorem refresh_without_tracked (s : App) (r : ℚ) (cars : List Car)
    (h : (∀ c ∈ cars, c.id ≠ BLUE_ID) ∨
      ∃ blue, cars.find? (fun c => c.id == BLUE_ID) = some blue ∧ blue.pos = []) :
    (refreshThen r ⟨some cars⟩ s).cars = some cars ∧
    (refreshThen r ⟨some cars⟩ s).speedData = s.speedData ∧
    (refreshThen r ⟨some cars⟩ s).sampleIndexRef = s.sampleIndexRef ∧
    (refreshThen r ⟨some cars⟩ s).prevXRef = s.prevXRef ∧
    emitted s (.refresh r ⟨some cars⟩) = [] ∧
    refreshThen r ⟨some cars⟩ s = { s with cars := some cars } := by
  have hb : blueX (some cars) = none := by
    refine (blueX_eq_none_iff cars).mpr ?_
    rcases h with hno | hempty
    · left
      rw [List.find?_eq_none]
      intro c hc
      simpa using hno c hc
    · exact Or.inr hempty
  have hs : refreshThen r ⟨some cars⟩ s = { s with cars := some cars } := by
    simp [refreshThen, hb, commitRender]
  rw [hs]
  refine ⟨rfl, rfl, rfl, rfl, ?_, rfl⟩
  simp [emitted, hb]

/-- C10 (witness). A snapshot without car 1, and one where car 1 has an empty
`pos`, after a provisioning that seeded `prevXRef = 5`. -/
theorem refresh_without_tracked_witness :
    (refreshThen 10 ⟨some [⟨2, [3]⟩]⟩
      (setup (some ⟨some "/simulations/1", some [⟨1, [5]⟩]⟩) initialApp)).prevXRef
      = (setup (some ⟨some "/simulations/1", some [⟨1, [5]⟩]⟩) initialApp).prevXRef ∧
    (refreshThen 10 ⟨some [⟨1, []⟩, ⟨2, [3]⟩]⟩
      (setup (some ⟨some "/simulations/1", some [⟨1, [5]⟩]⟩) initialApp)).speedData
      = (setup (some ⟨some "/simulations/1", some [⟨1, [5]⟩]⟩) initialApp).speedData :=
  ⟨(refresh_without_tracked _ 10 [⟨2, [3]⟩] (Or.inl (by simp [BLUE_ID]))).2.2.2.1,
   (refresh_without_tracked _ 10 [⟨1, []⟩, ⟨2, [3]⟩]
      (Or.inr ⟨⟨1, []⟩, by simp [BLUE_ID], rfl⟩)).2.1⟩

/-- C8 (evaluation at the failing input). If Start was never pressed, a rate
change only records the rate and registers no interval. But after Setup, Start
and Stop (no interval active, yet `running.current` still holds the old handle 1),
a rate change to 20 registers a new interval: the scheduler is Running again
without Start having been pressed. -/
theorem rate_change_after_stop_restarts :
    Idle (step (setup (some ⟨some "/simulations/1", some [⟨1, [5]⟩]⟩) initialApp)
      (.setRate 20)) ∧
    Idle (run (setup (some ⟨some "/simulations/1", some [⟨1, [5]⟩]⟩) initialApp)
      [.start, .stop]) ∧
    (run (setup (some ⟨some "/simulations/1", some [⟨1, [5]⟩]⟩) initialApp)
      [.start, .stop]).running = some 1 ∧
    (run (setup (some ⟨some "/simulations/1", some [⟨1, [5]⟩]⟩) initialApp)
      [.start, .stop, .setRate 20]).timers = [⟨2, 100, "/simulations/1", 10⟩] ∧
    Running (run (setup (some ⟨some "/simulations/1", some [⟨1, [5]⟩]⟩) initialApp)
      [.start, .stop, .setRate 20]) := by
  have hne : ¬ ("/simulations/1" : String) = "" := by decide
  refine ⟨?_, ?_, ?_, ?_, ?_⟩
  · rw [setup_at_5]
    simp [Idle, step, render, handleSimSpeedSliderChange, handleTruthy]
  · rw [run_cons, started_at_5]
    simp [Idle, run, step, handleStop, clearInterval]
  · rw [run_cons, started_at_5]
    simp [run, step, handleStop, clearInterval]
  · rw [run_cons, started_at_5]
    simp [run, step, render, handleStart, handleStop, handleSimSpeedSliderChange,
      handleTruthy, locationTruthy, clearInterval, fdiv_1000_10, hne]
  · rw [run_cons, started_at_5]
    simp [Running, run, step, render, handleStart, handleStop, handleSimSpeedSliderChange,
      handleTruthy, locationTruthy, clearInterval, fdiv_1000_10, hne]

/-- C9 (evaluation at the failing input). Running at rate 10 (interval 100 ms),
a rate change to 20 leaves exactly one interval, but its delay is still
`1000 / 10 = 100` ms, not `1000 / 20 = 50` ms, and its callback still scales by
10: a poll through it that sees the tracked car move from 5 to 5.5 builds the
sample `{n: 1, speed: 160}`, not 320. The recorded `simSpeed` is 20. -/
theorem rate_change_keeps_old_interval :
    (run (setup (some ⟨some "/simulations/1", some [⟨1, [5]⟩]⟩) initialApp)
      [.start]).timers = [⟨1, 100, "/simulations/1", 10⟩] ∧
    (run (setup (some ⟨some "/simulations/1", some [⟨1, [5]⟩]⟩) initialApp)
      [.start, .setRate 20]).timers = [⟨2, 100, "/simulations/1", 10⟩] ∧
    (run (setup (some ⟨some "/simulations/1", some [⟨1, [5]⟩]⟩) initialApp)
      [.start, .setRate 20]).simSpeed = 20 ∧
    (100 : ℚ) ≠ 1000 / 20 ∧
    (run (setup (some ⟨some "/simulations/1", some [⟨1, [5]⟩]⟩) initialApp)
      [.start, .setRate 20, .refresh 10 ⟨some [⟨1, [11 / 2]⟩]⟩]).speedData = [⟨1, 160⟩] := by
  have hne : ¬ ("/simulations/1" : String) = "" := by decide
  refine ⟨?_, ?_, ?_, ?_, ?_⟩
  · rw [run_cons, started_at_5, run_nil]
  · rw [run_cons, started_at_5]
    simp [run, step, render, handleStart, handleSimSpeedSliderChange,
      handleTruthy, locationTruthy, clearInterval, fdiv_1000_10, hne]
  · rw [run_cons, started_at_5]
    simp [run, step, render, handleStart, handleSimSpeedSliderChange,
      handleTruthy, locationTruthy, clearInterval, fdiv_1000_10, hne]
  · norm_num
  · rw [run_cons, started_at_5]
    simp [run, step, render, handleStart, handleSimSpeedSliderChange, refreshThen,
      handleTruthy, locationTruthy, clearInterval, fdiv_1000_10, hne, blueX, BLUE_ID,
      commitRender, pushSample, speed_5_to_5_5_at_10]

end Car25
